import Mathlib

/-!
# csvtocck: aggregation of fixture records and rendering of CCK blocks

A shallow embedding of `main.go`.  The program reads 4-field CSV records, groups them by
the fixture identifier in field 1 (counting the records of each group, and keeping the
description and the leading-digit wattage of the first record of the group), and then
writes one `FIXTURE` block per group through a fixed text template.

Conventions of the embedding:

* a Go `int` is an `Int` kept in the range of a 64-bit two's complement word by `wrapInt`;
* a Go `string` is a `String`;
* the map `fixtures` is an association list with `mapGet`, `mapSet` and `mapUpdate`;
  the order in which `range` visits it is a parameter of the rendering loop;
* the input is the list of rows as `encoding/csv` lexes them (each row a list of fields);
  the reader's field-count check is part of the embedding;
* the output path holds `some` bytes or does not exist (`none`); an open file carries its
  bytes and whether its descriptor accepts writes, which for the flag `O_APPEND` alone
  depends on the platform;
* `log.Fatal` is the `error` branch of `Except Fatal`; `main` returns an `Outcome`, the
  bytes under the output path after the run together with the fatal exit or the success.
-/

namespace CsvToCck

/-! ## Machine integers -/

/-- Largest value of a Go `int` on a 64-bit platform. -/
def maxInt : Int := 9223372036854775807

/-- Smallest value of a Go `int` on a 64-bit platform. -/
def minInt : Int := -9223372036854775808

/-- Two's complement wrap-around of 64-bit signed arithmetic. -/
def wrapInt (x : Int) : Int :=
  (x + 9223372036854775808) % 18446744073709551616 - 9223372036854775808

/-! ## `FixtureInfo` (main.go, lines 16-34) -/

/-- The aggregate kept for one fixture identifier. -/
structure FixtureInfo where
  ID : String
  Description : String
  VA : Int
  Count : Int
  deriving DecidableEq, Repr

/-- Method `Add`: `f.Count += qty`. -/
def FixtureInfo.Add (f : FixtureInfo) (qty : Int) : FixtureInfo :=
  { f with Count := wrapInt (f.Count + qty) }

/-- Constructor `NewFixtureInfo`: the count starts at 1. -/
def NewFixtureInfo (id desc : String) (va : Int) : FixtureInfo :=
  { ID := id, Description := desc, VA := va, Count := 1 }

/-! ## The map `fixtures` -/

/-- The Go map `map[string]*FixtureInfo`, as an association list. -/
abbrev Fixtures := List (String × FixtureInfo)

/-- Map lookup `fixtures[k]` with the comma-ok form: `none` when the key is absent. -/
def mapGet (k : String) : Fixtures → Option FixtureInfo
  | [] => none
  | (k', v) :: m => if k' = k then some v else mapGet k m

/-- In-place change of the value stored under `k` (a method call through the stored
pointer); a map without the key is left as it is. -/
def mapUpdate (k : String) (g : FixtureInfo → FixtureInfo) : Fixtures → Fixtures
  | [] => []
  | (k', v) :: m => if k' = k then (k', g v) :: m else (k', v) :: mapUpdate k g m

/-- Map assignment `fixtures[k] = v`: replaces the value of a present key, adds an absent
one. -/
def mapSet (k : String) (v : FixtureInfo) : Fixtures → Fixtures
  | [] => [(k, v)]
  | (k', v') :: m => if k' = k then (k', v) :: m else (k', v') :: mapSet k v m

/-- The keys of the map. -/
def mapKeys (m : Fixtures) : List String := m.map Prod.fst

/-- The values of the map. -/
def mapValues (m : Fixtures) : List FixtureInfo := m.map Prod.snd

/-! ## Wattage extraction (main.go, lines 36-38 and 99-107) -/

/-- The call `digitsRegex.FindString(s)` for the pattern `^\d+`: the longest run of ASCII
digits at the start of `s`, the empty string when `s` does not start with a digit. -/
def digitsRegexFindString (s : String) : String :=
  String.mk (s.toList.takeWhile Char.isDigit)

/-- Value of one ASCII digit. -/
def digitValue (c : Char) : Nat := c.toNat - 48

/-- Base-10 accumulation of a digit string, most significant digit first. -/
def parseDecimal (cs : List Char) : Nat :=
  cs.foldl (fun n c => n * 10 + digitValue c) 0

/-- The two kinds of error of `strconv.Atoi`. -/
inductive NumError where
  | ErrSyntax
  | ErrRange
  deriving DecidableEq, Repr

/-- The library function `strconv.Atoi`: an optional sign followed by one or more decimal
digits, in base 10; `ErrSyntax` for any other text and `ErrRange` when the value does not
fit in an `int`. -/
def Atoi (s : String) : Except NumError Int :=
  let body : List Char :=
    match s.toList with
    | '-' :: cs => cs
    | '+' :: cs => cs
    | cs => cs
  let neg : Bool :=
    match s.toList with
    | '-' :: _ => true
    | _ => false
  if body = [] ∨ ¬ (body.all Char.isDigit = true) then .error .ErrSyntax
  else if neg then
    if (parseDecimal body : Int) ≤ -minInt then .ok (-(parseDecimal body : Int))
    else .error .ErrRange
  else
    if (parseDecimal body : Int) ≤ maxInt then .ok (parseDecimal body : Int)
    else .error .ErrRange

/-- Why no wattage could be taken from a text. -/
inductive ExtractError where
  | noDigits
  | convert (e : NumError)
  deriving DecidableEq, Repr

/-- Lines 99-107 without the diagnostics: the leading digits of the text, converted by
`Atoi`. -/
def extract (text : String) : Except ExtractError Int :=
  let digits := digitsRegexFindString text
  if digits = "" then .error .noDigits
  else
    match Atoi digits with
    | .error e => .error (.convert e)
    | .ok va => .ok va

/-! ## Reading and aggregating (main.go, lines 75-111) -/

/-- The setting `reader.FieldsPerRecord = 4`. -/
def FieldsPerRecord : Nat := 4

/-- The errors `reader.Read()` can return on lexed rows. -/
inductive ReadError where
  | EOF
  | ErrFieldCount
  deriving DecidableEq, Repr

/-- The fatal exits of `main`, each with the values its diagnostic prints. -/
inductive Fatal where
  /-- Line 72: `log.Fatal("Error opening file: ", err)`. -/
  | openInput
  /-- Line 84: `log.Fatal("Error reading header: ", err)`. -/
  | readHeader (err : ReadError)
  /-- Line 92: `log.Fatal("Error reading record: ", record, err)`. -/
  | readRecord (record : List String) (err : ReadError)
  /-- Line 101: `log.Fatalf("Error matching digits in VA: %+v line %d", record, line)`. -/
  | matchDigits (record : List String) (line : Int)
  /-- Line 106: `log.Fatalf("Line %d: Error converting VA to int: %v", line, err)`. -/
  | convertVA (line : Int) (err : NumError)
  /-- Line 118: `log.Fatal("Error opening output file: ", err)`. -/
  | openOutput
  /-- Line 139: `log.Fatal("Error executing template: ", err)`. -/
  | executeTemplate
  /-- A run-time panic of an index expression `record[i]` out of range. -/
  | indexOutOfRange
  deriving DecidableEq, Repr

/-- The body of the reading loop, lines 94-110, for one record that was read without
error; `line` is the value of the variable `line` at that moment.  The wattage digits are
taken from `record[3]`, as line 99 does (the comment of line 98 names `record[2]`). -/
def processRecord (fixtures : Fixtures) (record : List String) (line : Int) :
    Except Fatal Fixtures :=
  match record[1]? with
  | none => .error .indexOutOfRange
  | some fixtureId =>
    match mapGet fixtureId fixtures with
    | some _ => .ok (mapUpdate fixtureId (fun f => f.Add 1) fixtures)
    | none =>
      match record[3]? with
      | none => .error .indexOutOfRange
      | some text =>
        match extract text with
        | .error .noDigits => .error (.matchDigits record line)
        | .error (.convert e) => .error (.convertVA line e)
        | .ok va =>
          match record[2]? with
          | none => .error .indexOutOfRange
          | some desc => .ok (mapSet fixtureId (NewFixtureInfo fixtureId desc va) fixtures)

/-- The reading loop, lines 90-111, over the rows that remain in the reader.  The end of
the rows is `io.EOF`, which ends the loop; a row without `FieldsPerRecord` fields makes
`reader.Read()` return `ErrFieldCount`.  The variable `line` is not assigned in the loop. -/
def readLoop (fixtures : Fixtures) (line : Int) : List (List String) → Except Fatal Fixtures
  | [] => .ok fixtures
  | record :: rest =>
    if record.length ≠ FieldsPerRecord then .error (.readRecord record .ErrFieldCount)
    else
      match processRecord fixtures record line with
      | .error e => .error e
      | .ok fixtures' => readLoop fixtures' line rest

/-- Lines 67-111 of `main`: the optional header is read and dropped, then the loop runs
from the empty map. -/
def aggregate (header : Bool) (input : List (List String)) : Except Fatal Fixtures :=
  let line : Int := 1
  if header then
    match input with
    | [] => .error (.readHeader .EOF)
    | first :: rest =>
      if first.length ≠ FieldsPerRecord then .error (.readHeader .ErrFieldCount)
      else readLoop [] (wrapInt (line + 1)) rest
  else readLoop [] line input

/-! ## The template (main.go, lines 40-58) -/

/-- The value passed to `tmpl.Execute`, lines 128-136. -/
structure TemplateData where
  Index : Int
  ListPosition : Int
  Fixture : FixtureInfo
  deriving DecidableEq, Repr

/-- A node of the parsed template: literal text, or one of the six actions. -/
inductive Node where
  | text (s : String)
  | Index
  | ListPosition
  | FixtureID
  | FixtureDescription
  | FixtureVA
  | FixtureCount
  deriving DecidableEq, Repr

/-- The constant `CCKFixtureTemplate` as `text/template` parses it: the literal text
between the actions, byte for byte, and the actions in their places. -/
def CCKFixtureTemplate : List Node :=
  [ .text "FIXTURE ", .Index,
    .text " (\n  list position = ", .ListPosition,
    .text "\n  fixture use type = FIXTURE_USE_INTERIOR\n  power adjustment factor = 0.000\n  paf desc = None\n  lamp wattage = 0.00\n  lighting type = LED\n  type of fixture = <|",
    .FixtureID,
    .text "|>\n  description = <|", .FixtureDescription,
    .text "|>\n  fixture type = <|", .FixtureID,
    .text "|>\n  parent number = 1\n  lamp ballast description = <||>\n  lamp type = Other\n  ballast = UNSPECIFIED_BALLAST\n  number of lamps = 1\n  fixture wattage = ",
    .FixtureVA,
    .text "\n  quantity = ", .FixtureCount,
    .text " )" ]

/-- How `text/template` prints an `int`: in decimal, with a minus sign when negative. -/
def formatInt (n : Int) : String := toString n

/-- The text one node produces: literal text as it is, a string field verbatim, an
integer field in decimal. -/
def Node.eval (d : TemplateData) : Node → String
  | .text s => s
  | .Index => formatInt d.Index
  | .ListPosition => formatInt d.ListPosition
  | .FixtureID => d.Fixture.ID
  | .FixtureDescription => d.Fixture.Description
  | .FixtureVA => formatInt d.Fixture.VA
  | .FixtureCount => formatInt d.Fixture.Count

/-! ## The output file and the rendering loop (main.go, lines 112-143) -/

/-- An open output file: the bytes it holds, and whether the descriptor accepts writes. -/
structure File where
  content : String
  canWrite : Bool
  deriving DecidableEq, Repr

/-- The method `WriteString`: appends to the file, or reports an error and writes nothing
when the descriptor does not accept writes. -/
def File.WriteString (f : File) (s : String) : File × Bool :=
  if f.canWrite then ({ f with content := f.content ++ s }, true) else (f, false)

/-- The method `tmpl.Execute(outFile, data)`: each node is written in turn; the first
failed write stops the execution with an error (`false`).  The file is returned as the
writes have left it. -/
def Execute : List Node → File → TemplateData → File × Bool
  | [], out, _ => (out, true)
  | n :: ns, out, d =>
    match out.WriteString (n.eval d) with
    | (out', true) => Execute ns out' d
    | (out', false) => (out', false)

/-- One pass through the body of the rendering loop, lines 127-142: the separator is
written (its error is not looked at), the template is executed, and both counters are
incremented. -/
def renderStep (out : File) (index ListPosition : Int) (fixture : FixtureInfo) :
    File × Except Fatal (Int × Int) :=
  let out1 := (out.WriteString "\r\n").1
  match Execute CCKFixtureTemplate out1
      { Index := index, ListPosition := ListPosition, Fixture := fixture } with
  | (out2, false) => (out2, .error .executeTemplate)
  | (out2, true) => (out2, .ok (wrapInt (index + 1), wrapInt (ListPosition + 1)))

/-- The rendering loop, lines 126-143, over the values of the map in the order in which
`range` yields them: the file as the loop leaves it, and either the fatal exit or the
final values of the two counters. -/
def renderLoop (out : File) (index ListPosition : Int) :
    List FixtureInfo → File × Except Fatal (Int × Int)
  | [] => (out, .ok (index, ListPosition))
  | fixture :: rest =>
    match renderStep out index ListPosition fixture with
    | (out', .error e) => (out', .error e)
    | (out', .ok (index', ListPosition')) => renderLoop out' index' ListPosition' rest

/-! ## Opening the output and the whole run (main.go, lines 60-145) -/

/-- The operating systems, which differ on a file opened with `O_APPEND` and no write
access mode. -/
inductive Platform where
  /-- Linux, macOS and the other POSIX systems: the descriptor of a read-only open
  rejects every write, `O_APPEND` or not. -/
  | posix
  /-- Windows: Go turns `O_APPEND` into the right to append data, so appending writes
  succeed on the handle. -/
  | windows
  deriving DecidableEq, Repr

/-- The flag argument of `os.OpenFile`: `write` stands for an access mode `O_WRONLY` or
`O_RDWR` (without it the mode is `O_RDONLY`, which is 0), the other fields for the bits
`O_APPEND` and `O_CREATE`.  The program passes no other bit. -/
structure OpenFlag where
  write : Bool
  append : Bool
  create : Bool
  deriving DecidableEq, Repr

/-- The constant `os.O_APPEND` alone, the flag of line 115. -/
def O_APPEND : OpenFlag :=
  { write := false, append := true, create := false }

/-- Whether a file opened with the flag accepts writes on the platform. -/
def OpenFlag.grantsWrite (flag : OpenFlag) : Platform → Bool
  | .posix => flag.write
  | .windows => flag.write || flag.append || flag.create

/-- The call `os.OpenFile(name, flag, perm)` on a path that holds the bytes `some c`, or
that does not exist (`none`): a missing file is an error unless `O_CREATE` is set, and
the bytes of an existing file are kept.  With `O_APPEND` every write goes to the end of
the file. -/
def OpenFile (platform : Platform) (path : Option String) (flag : OpenFlag) : Option File :=
  match path with
  | none =>
    if flag.create then some { content := "", canWrite := flag.grantsWrite platform }
    else none
  | some c =>
    some { content := c, canWrite := flag.grantsWrite platform }

/-- What a run leaves behind: the bytes under the output path (`none` when the path does
not exist), and either the fatal exit or the number of fixtures reported by the final
message `Wrote %d fixtures to %s`. -/
structure Outcome where
  output : Option String
  result : Except Fatal Nat
  deriving Repr

/-- The function `main`.  `inputFile` is what the input path holds (the lexed rows, or
`none` when it cannot be opened), `outputFile` what the output path holds before the
run, and `rangeOrder` the order in which `range` yields the values of the map. -/
def main (platform : Platform) (header : Bool) (inputFile : Option (List (List String)))
    (outputFile : Option String) (rangeOrder : Fixtures → List FixtureInfo) : Outcome :=
  match inputFile with
  | none => { output := outputFile, result := .error .openInput }
  | some input =>
    match aggregate header input with
    | .error e => { output := outputFile, result := .error e }
    | .ok fixtures =>
      match OpenFile platform outputFile O_APPEND with
      | none => { output := outputFile, result := .error .openOutput }
      | some outFile =>
        match renderLoop outFile 1 1 (rangeOrder fixtures) with
        | (out, .error e) => { output := some out.content, result := .error e }
        | (out, .ok _) => { output := some out.content, result := .ok fixtures.length }

/-! ## The output format of the specification -/

/-- The block of the output format, line by line, for given index, list position,
identifier, description, wattage and count. -/
def specBlock (k p : Int) (id description : String) (wattage count : Int) : String :=
  String.intercalate "\n"
    [ "FIXTURE " ++ toString k ++ " (",
      "  list position = " ++ toString p,
      "  fixture use type = FIXTURE_USE_INTERIOR",
      "  power adjustment factor = 0.000",
      "  paf desc = None",
      "  lamp wattage = 0.00",
      "  lighting type = LED",
      "  type of fixture = <|" ++ id ++ "|>",
      "  description = <|" ++ description ++ "|>",
      "  fixture type = <|" ++ id ++ "|>",
      "  parent number = 1",
      "  lamp ballast description = <||>",
      "  lamp type = Other",
      "  ballast = UNSPECIFIED_BALLAST",
      "  number of lamps = 1",
      "  fixture wattage = " ++ toString wattage,
      "  quantity = " ++ toString count ++ " )" ]

/-! ## Notions used to state the properties -/

/-- Field 1 of the record is the identifier `i`. -/
def hasId (i : String) (r : List String) : Bool := decide (r[1]? = some i)

/-- The data records of an input: all rows, or all rows but the first under `header`. -/
def dataRecords (header : Bool) (input : List (List String)) : List (List String) :=
  if header then input.drop 1 else input

/-- What the map holds after the loop has run over `records` from the empty map. -/
def AggInv (records : List (List String)) (fx : Fixtures) : Prop :=
  (mapKeys fx).Nodup ∧ (∀ r ∈ records, r.length = 4) ∧
  ∀ i, match records.find? (hasId i) with
    | none => mapGet i fx = none
    | some r => ∃ desc text va, r[2]? = some desc ∧ r[3]? = some text ∧
        extract text = .ok va ∧
        mapGet i fx = some ⟨i, desc, va, wrapInt (records.countP (hasId i))⟩

/-- The rows of the round-trip scenario of the specification, header included. -/
def scenarioRows : List (List String) :=
  [ ["id", "fixtureId", "description", "va"],
    ["1", "F1", "Downlight", "150W"],
    ["2", "F1", "Downlight", "150W"],
    ["3", "F2", "Wallwasher", "75VA"] ]

/-- The aggregates of the round-trip scenario. -/
def scenarioFixtures : Fixtures :=
  [ ("F1", { ID := "F1", Description := "Downlight", VA := 150, Count := 2 }),
    ("F2", { ID := "F2", Description := "Wallwasher", VA := 75, Count := 1 }) ]

/-- Three data records in which the last repeats the identifier of the first with other
texts. -/
def repeatRows : List (List String) :=
  [ ["1", "F1", "Downlight", "150W"],
    ["2", "F2", "Spot", "75VA"],
    ["3", "F1", "Other text", "N/A"] ]

/-- The aggregates of the rows of repeatRows. -/
def repeatFixtures : Fixtures :=
  [ ("F1", { ID := "F1", Description := "Downlight", VA := 150, Count := 2 }),
    ("F2", { ID := "F2", Description := "Spot", VA := 75, Count := 1 }) ]

/-- The text a template produces for a value: the texts of its nodes, in order. -/
def executeText : List Node → TemplateData → String
  | [], _ => ""
  | n :: ns, d => n.eval d ++ executeText ns d

/-- Concatenation of a list of texts, in order. -/
def concatAll : List String → String
  | [] => ""
  | s :: ss => s ++ concatAll ss

/-- The file after the text `s` has been appended to it. -/
def File.append (out : File) (s : String) : File :=
  { out with content := out.content ++ s }

/-- An empty output file that accepts writes. -/
def emptyWritable : File := { content := "", canWrite := true }

/-- Two data records with the same identifier, the second with a wattage text without
digits. -/
def sameIdRows : List (List String) :=
  [ ["1", "F1", "Downlight", "150W"],
    ["2", "F1", "Downlight", "N/A"] ]

/-- A header, a good record on line 2 and a record without wattage digits on line 3. -/
def badThirdLineRows : List (List String) :=
  [ ["id", "fixtureId", "description", "va"],
    ["1", "F1", "Downlight", "150W"],
    ["2", "F2", "Wallwasher", "N/A"] ]

/-- The data records of the round-trip scenario in another order, without a header. -/
def scenarioRowsReordered : List (List String) :=
  [ ["3", "F2", "Wallwasher", "75VA"],
    ["2", "F1", "Downlight", "150W"],
    ["1", "F1", "Downlight", "150W"] ]

/-- The aggregates of scenarioRowsReordered. -/
def scenarioFixturesReordered : Fixtures :=
  [ ("F2", { ID := "F2", Description := "Wallwasher", VA := 75, Count := 1 }),
    ("F1", { ID := "F1", Description := "Downlight", VA := 150, Count := 2 }) ]

/-! ## Lemmas on machine integers -/

theorem wrapInt_add_wrapInt (a b : Int) : wrapInt (wrapInt a + b) = wrapInt (a + b) := by
  unfold wrapInt; omega

theorem wrapInt_eq_self {a : Int} (hlo : minInt ≤ a) (hhi : a ≤ maxInt) : wrapInt a = a := by
  unfold wrapInt; unfold minInt at hlo; unfold maxInt at hhi; omega

/-! ## Lemmas on the map -/

theorem mapGet_mapUpdate (j k : String) (g : FixtureInfo → FixtureInfo) (m : Fixtures) :
    mapGet j (mapUpdate k g m) = if j = k then (mapGet k m).map g else mapGet j m := by
  induction m with
  | nil => simp [mapGet, mapUpdate]
  | cons e m ih =>
    obtain ⟨k', v⟩ := e
    by_cases hk : k' = k
    · subst hk
      by_cases hj : j = k'
      · subst hj; simp [mapGet, mapUpdate]
      · have hj' : ¬ k' = j := fun h => hj h.symm
        simp [mapGet, mapUpdate, hj, hj']
    · by_cases hj : j = k
      · subst hj; simp [mapGet, mapUpdate, hk, ih]
      · simp [mapGet, mapUpdate, hk, ih, hj]

theorem mapGet_mapSet (j k : String) (v : FixtureInfo) (m : Fixtures) :
    mapGet j (mapSet k v m) = if j = k then some v else mapGet j m := by
  induction m with
  | nil =>
    by_cases hj : j = k
    · subst hj; simp [mapGet, mapSet]
    · have hj' : ¬ k = j := fun h => hj h.symm
      simp [mapGet, mapSet, hj, hj']
  | cons e m ih =>
    obtain ⟨k', v'⟩ := e
    by_cases hk : k' = k
    · subst hk
      by_cases hj : j = k'
      · subst hj; simp [mapGet, mapSet]
      · have hj' : ¬ k' = j := fun h => hj h.symm
        simp [mapGet, mapSet, hj, hj']
    · by_cases hj : j = k
      · subst hj; simp [mapGet, mapSet, hk, ih]
      · simp [mapGet, mapSet, hk, ih, hj]

theorem mapKeys_mapUpdate (k : String) (g : FixtureInfo → FixtureInfo) (m : Fixtures) :
    mapKeys (mapUpdate k g m) = mapKeys m := by
  induction m with
  | nil => rfl
  | cons e m ih =>
    obtain ⟨k', v⟩ := e
    by_cases hk : k' = k
    · simp [mapKeys, mapUpdate, hk]
    · simp only [mapKeys] at ih
      simp [mapKeys, mapUpdate, hk, ih]

theorem mapGet_eq_none_iff (k : String) (m : Fixtures) :
    mapGet k m = none ↔ k ∉ mapKeys m := by
  induction m with
  | nil => simp [mapGet, mapKeys]
  | cons e m ih =>
    obtain ⟨k', v⟩ := e
    simp only [mapKeys] at ih
    by_cases hk : k' = k
    · simp [mapGet, mapKeys, hk]
    · have hk' : ¬ k = k' := fun h => hk h.symm
      simp [mapGet, mapKeys, hk, hk', ih]

theorem mapKeys_mapSet_of_absent (k : String) (v : FixtureInfo) (m : Fixtures)
    (h : mapGet k m = none) : mapKeys (mapSet k v m) = mapKeys m ++ [k] := by
  induction m with
  | nil => rfl
  | cons e m ih =>
    obtain ⟨k', v'⟩ := e
    by_cases hk : k' = k
    · simp [mapGet, hk] at h
    · simp only [mapGet, hk, if_false] at h
      have := ih h
      simp only [mapKeys] at this
      simp [mapKeys, mapSet, hk, this]

/-! ## The reading loop, record by record -/

theorem length_eq_four {r : List String} (h : r.length = 4) :
    ∃ a id d w, r = [a, id, d, w] := by
  match r, h with
  | [a, id, d, w], _ => exact ⟨a, id, d, w, rfl⟩

theorem readLoop_append (fx : Fixtures) (line : Int) (xs ys : List (List String)) :
    readLoop fx line (xs ++ ys) =
      match readLoop fx line xs with
      | .error e => .error e
      | .ok fx1 => readLoop fx1 line ys := by
  induction xs generalizing fx with
  | nil => simp [readLoop]
  | cons r xs ih =>
    simp only [List.cons_append, readLoop]
    split
    · rfl
    · cases hp : processRecord fx r line with
      | error e => rfl
      | ok fx1 => simp [ih]

theorem readLoop_snoc_ok {fx fx' : Fixtures} {line : Int} {xs : List (List String)}
    {r : List String} (h : readLoop fx line (xs ++ [r]) = .ok fx') :
    ∃ fx1, readLoop fx line xs = .ok fx1 ∧ r.length = 4 ∧ processRecord fx1 r line = .ok fx' := by
  rw [readLoop_append] at h
  cases h1 : readLoop fx line xs with
  | error e => simp [h1] at h
  | ok fx1 =>
    simp only [h1, readLoop] at h
    by_cases hl : r.length = 4
    · refine ⟨fx1, rfl, hl, ?_⟩
      simp only [FieldsPerRecord, hl, ne_eq, not_true_eq_false, if_false] at h
      cases hp : processRecord fx1 r line with
      | error e => simp [hp] at h
      | ok fx2 => simp [hp] at h; simp [h]
    · simp [FieldsPerRecord, hl] at h

theorem processRecord_ok {fx fx' : Fixtures} {line : Int} {a id d w : String}
    (h : processRecord fx [a, id, d, w] line = .ok fx') :
    (∃ f, mapGet id fx = some f ∧ fx' = mapUpdate id (fun f => f.Add 1) fx) ∨
    (mapGet id fx = none ∧ ∃ va, extract w = .ok va ∧
      fx' = mapSet id (NewFixtureInfo id d va) fx) := by
  simp only [processRecord, List.getElem?_cons_succ, List.getElem?_cons_zero] at h
  cases hg : mapGet id fx with
  | some f =>
    left
    simp only [hg] at h
    exact ⟨f, rfl, by simpa using h.symm⟩
  | none =>
    right
    simp only [hg] at h
    refine ⟨rfl, ?_⟩
    cases he : extract w with
    | error e => cases e <;> simp [he] at h
    | ok va =>
      simp only [he] at h
      exact ⟨va, rfl, by simpa using h.symm⟩

theorem countP_eq_zero_of_find?_none {α : Type} (p : α → Bool) (xs : List α)
    (h : xs.find? p = none) : xs.countP p = 0 := by
  rw [List.countP_eq_zero]
  intro a ha
  have := List.find?_eq_none.mp h a ha
  simpa using this

theorem readLoop_inv (line : Int) (xs : List (List String)) :
    ∀ fx, readLoop [] line xs = .ok fx → AggInv xs fx := by
  induction xs using List.reverseRecOn with
  | nil =>
    intro fx h
    simp only [readLoop, Except.ok.injEq] at h
    subst h
    refine ⟨by simp [mapKeys], by simp, ?_⟩
    intro i
    simp [mapGet]
  | append_singleton xs r ih =>
    intro fx' h
    obtain ⟨fx1, h1, hl, hp⟩ := readLoop_snoc_ok h
    obtain ⟨hnd, hlen, hinv⟩ := ih fx1 h1
    obtain ⟨a, id, d, w, rfl⟩ := length_eq_four hl
    have hstep := processRecord_ok hp
    refine ⟨?_, ?_, ?_⟩
    · rcases hstep with ⟨f, _, rfl⟩ | ⟨hnone, va, _, rfl⟩
      · rw [mapKeys_mapUpdate]; exact hnd
      · rw [mapKeys_mapSet_of_absent _ _ _ hnone]
        rw [List.nodup_append]
        refine ⟨hnd, by simp, ?_⟩
        have := (mapGet_eq_none_iff id fx1).mp hnone
        intro k hk hk'
        simp only [List.mem_singleton] at hk'
        subst hk'
        exact this hk
    · intro r' hr'
      rcases List.mem_append.mp hr' with h' | h'
      · exact hlen r' h'
      · simp at h'; subst h'; rfl
    · intro i
      have hi := hinv i
      by_cases hid : i = id
      · subst hid
        have hr : hasId i [a, i, d, w] = true := by simp [hasId]
        rcases hstep with ⟨f, hf, rfl⟩ | ⟨hnone, va, hva, rfl⟩
        · cases hfind : xs.find? (hasId i) with
          | none => simp [hfind, hf] at hi
          | some r0 =>
            simp only [hfind] at hi
            obtain ⟨desc, text, va, h2, h3, hex, hget⟩ := hi
            simp only [List.find?_append, hfind, Option.or]
            refine ⟨desc, text, va, h2, h3, hex, ?_⟩
            rw [mapGet_mapUpdate, if_pos rfl, hget]
            simp [FixtureInfo.Add, List.countP_append, List.countP_cons, hr,
              wrapInt_add_wrapInt]
        · cases hfind : xs.find? (hasId i) with
          | some r0 =>
            simp only [hfind] at hi
            obtain ⟨_, _, _, _, _, _, hget⟩ := hi
            simp [hget] at hnone
          | none =>
            have hc := countP_eq_zero_of_find?_none _ _ hfind
            simp only [List.find?_append, hfind, Option.or, List.find?_cons, hr]
            refine ⟨d, w, va, by simp, by simp, hva, ?_⟩
            rw [mapGet_mapSet, if_pos rfl]
            simp [NewFixtureInfo, List.countP_append, List.countP_cons, hr, hc, wrapInt]
      · have hr : hasId i [a, id, d, w] = false := by
          simp [hasId]; exact fun h => hid h.symm
        have hget : mapGet i fx' = mapGet i fx1 := by
          rcases hstep with ⟨f, _, rfl⟩ | ⟨_, va, _, rfl⟩
          · rw [mapGet_mapUpdate, if_neg hid]
          · rw [mapGet_mapSet, if_neg hid]
        have hfind : (xs ++ [[a, id, d, w]]).find? (hasId i) = xs.find? (hasId i) := by
          simp [List.find?_append, List.find?_cons, hr]
        have hcount : (xs ++ [[a, id, d, w]]).countP (hasId i) = xs.countP (hasId i) := by
          simp [List.countP_append, List.countP_cons, hr]
        rw [hfind, hcount, hget]
        exact hi

/-! ## Aggregation: counts, keys and first records -/

theorem aggregate_ok {header : Bool} {input : List (List String)} {fx : Fixtures}
    (h : aggregate header input = .ok fx) :
    ∃ line, readLoop [] line (dataRecords header input) = .ok fx := by
  cases header with
  | false => exact ⟨1, by simpa [aggregate, dataRecords] using h⟩
  | true =>
    cases input with
    | nil => simp [aggregate] at h
    | cons first rest =>
      by_cases hl : first.length = FieldsPerRecord
      · exact ⟨wrapInt (1 + 1), by simpa [aggregate, dataRecords, hl] using h⟩
      · simp [aggregate, hl] at h

theorem aggregate_inv {header : Bool} {input : List (List String)} {fx : Fixtures}
    (h : aggregate header input = .ok fx) : AggInv (dataRecords header input) fx := by
  obtain ⟨line, hl⟩ := aggregate_ok h
  exact readLoop_inv line _ fx hl

theorem find?_hasId_eq_none_iff (i : String) (xs : List (List String)) :
    xs.find? (hasId i) = none ↔ ∀ r ∈ xs, r[1]? ≠ some i := by
  simp [List.find?_eq_none, hasId]

theorem find?_hasId_first (i : String) (pre post : List (List String)) (r : List String)
    (hr : r[1]? = some i) (hpre : ∀ r' ∈ pre, r'[1]? ≠ some i) :
    (pre ++ r :: post).find? (hasId i) = some r := by
  have h1 : pre.find? (hasId i) = none := (find?_hasId_eq_none_iff i pre).mpr hpre
  have h2 : hasId i r = true := by simp [hasId, hr]
  simp [List.find?_append, h1, List.find?_cons, h2]

/-- C1: when aggregation succeeds, every identifier that occurs in field 1 of a data
record has an aggregate, and its Count is the number of data records carrying it (for
inputs of fewer than 2^63 records, the range of the counter). -/
theorem count_eq_number_of_records (header : Bool) (input : List (List String))
    (fx : Fixtures) (i : String)
    (hok : aggregate header input = .ok fx)
    (hlen : (dataRecords header input).length < 2 ^ 63)
    (hi : ∃ r ∈ dataRecords header input, r[1]? = some i) :
    ∃ f, mapGet i fx = some f ∧
      f.Count = ((dataRecords header input).countP (fun r => decide (r[1]? = some i)) : Nat) := by
  obtain ⟨_, _, hinv⟩ := aggregate_inv hok
  have h := hinv i
  cases hfind : (dataRecords header input).find? (hasId i) with
  | none =>
    obtain ⟨r, hr, hri⟩ := hi
    exact absurd hri ((find?_hasId_eq_none_iff i _).mp hfind r hr)
  | some r0 =>
    simp only [hfind] at h
    obtain ⟨desc, text, va, _, _, _, hget⟩ := h
    refine ⟨_, hget, ?_⟩
    have hle : (dataRecords header input).countP (hasId i) ≤ (dataRecords header input).length :=
      List.countP_le_length _
    have hc : (((dataRecords header input).countP (hasId i) : Nat) : Int) ≤ maxInt := by
      unfold maxInt; omega
    have hz : minInt ≤ (((dataRecords header input).countP (hasId i) : Nat) : Int) := by
      unfold minInt; omega
    exact wrapInt_eq_self hz hc

theorem count_eq_number_of_records_witness :
    aggregate true scenarioRows = .ok scenarioFixtures ∧
    (dataRecords true scenarioRows).length < 2 ^ 63 ∧
    (∃ r ∈ dataRecords true scenarioRows, r[1]? = some "F1") ∧
    ∃ f, mapGet "F1" scenarioFixtures = some f ∧
      f.Count = ((dataRecords true scenarioRows).countP
        (fun r => decide (r[1]? = some "F1")) : Nat) :=
  ⟨rfl, by decide, ⟨["1", "F1", "Downlight", "150W"], by decide, rfl⟩,
    count_eq_number_of_records true scenarioRows scenarioFixtures "F1" rfl (by decide)
      ⟨["1", "F1", "Downlight", "150W"], by decide, rfl⟩⟩

theorem mem_mapKeys_iff_of_inv {records : List (List String)} {fx : Fixtures}
    (h : AggInv records fx) (i : String) :
    i ∈ mapKeys fx ↔ ∃ r ∈ records, r[1]? = some i := by
  obtain ⟨_, _, hinv⟩ := h
  have hi := hinv i
  constructor
  · intro hmem
    by_contra hno
    have hnone : records.find? (hasId i) = none := by
      rw [find?_hasId_eq_none_iff]
      intro r hr hri
      exact hno ⟨r, hr, hri⟩
    simp only [hnone] at hi
    exact (mapGet_eq_none_iff i fx).mp hi hmem
  · rintro ⟨r, hr, hri⟩
    cases hfind : records.find? (hasId i) with
    | none => exact absurd hri ((find?_hasId_eq_none_iff i _).mp hfind r hr)
    | some r0 =>
      simp only [hfind] at hi
      obtain ⟨_, _, _, _, _, _, hget⟩ := hi
      by_contra hmem
      rw [(mapGet_eq_none_iff i fx).mpr hmem] at hget
      exact Option.noConfusion hget

/-- C2: when aggregation succeeds, the keys of the aggregate collection are pairwise
distinct, an identifier is a key exactly when it is field 1 of some data record, and
the number of aggregates is the number of distinct identifiers. -/
theorem keys_eq_distinct_identifiers (header : Bool) (input : List (List String))
    (fx : Fixtures) (hok : aggregate header input = .ok fx) :
    (mapKeys fx).Nodup ∧
    (∀ i, i ∈ mapKeys fx ↔ ∃ r ∈ dataRecords header input, r[1]? = some i) ∧
    fx.length = (((dataRecords header input).filterMap (fun r => r[1]?)).dedup).length := by
  have hinv := aggregate_inv hok
  have hmem := mem_mapKeys_iff_of_inv hinv
  refine ⟨hinv.1, hmem, ?_⟩
  have hperm : (mapKeys fx).Perm
      (((dataRecords header input).filterMap (fun r => r[1]?)).dedup) := by
    rw [List.perm_ext_iff_of_nodup hinv.1 (List.nodup_dedup _)]
    intro i
    rw [hmem i, List.mem_dedup, List.mem_filterMap]
  have := hperm.length_eq
  simpa [mapKeys] using this

theorem keys_eq_distinct_identifiers_witness :
    aggregate true scenarioRows = .ok scenarioFixtures ∧
    ((mapKeys scenarioFixtures).Nodup ∧
    (∀ i, i ∈ mapKeys scenarioFixtures ↔ ∃ r ∈ dataRecords true scenarioRows, r[1]? = some i) ∧
    scenarioFixtures.length =
      (((dataRecords true scenarioRows).filterMap (fun r => r[1]?)).dedup).length) :=
  ⟨rfl, keys_eq_distinct_identifiers true scenarioRows scenarioFixtures rfl⟩

/-- C3: when aggregation succeeds, the aggregate of an identifier holds the description
(field 2) of the first data record carrying the identifier and the wattage extracted
from field 3 of that record, whatever the records after it hold. -/
theorem first_record_wins (header : Bool) (input : List (List String)) (fx : Fixtures)
    (i : String) (pre post : List (List String)) (r : List String)
    (hok : aggregate header input = .ok fx)
    (hsplit : dataRecords header input = pre ++ r :: post)
    (hr : r[1]? = some i)
    (hpre : ∀ r' ∈ pre, r'[1]? ≠ some i) :
    ∃ f text, mapGet i fx = some f ∧ r[2]? = some f.Description ∧
      r[3]? = some text ∧ extract text = .ok f.VA := by
  obtain ⟨_, _, hinv⟩ := aggregate_inv hok
  have h := hinv i
  rw [hsplit, find?_hasId_first i pre post r hr hpre] at h
  obtain ⟨desc, text, va, h2, h3, hex, hget⟩ := h
  exact ⟨_, text, hget, h2, h3, hex⟩

theorem first_record_wins_witness :
    aggregate false repeatRows = .ok repeatFixtures ∧
    dataRecords false repeatRows =
      [] ++ ["1", "F1", "Downlight", "150W"] ::
        [["2", "F2", "Spot", "75VA"], ["3", "F1", "Other text", "N/A"]] ∧
    ["1", "F1", "Downlight", "150W"][1]? = some "F1" ∧
    (∀ r' ∈ ([] : List (List String)), r'[1]? ≠ some "F1") ∧
    ∃ f text, mapGet "F1" repeatFixtures = some f ∧
      ["1", "F1", "Downlight", "150W"][2]? = some f.Description ∧
      ["1", "F1", "Downlight", "150W"][3]? = some text ∧ extract text = .ok f.VA :=
  ⟨rfl, rfl, rfl, by simp,
    first_record_wins false repeatRows repeatFixtures "F1" []
      [["2", "F2", "Spot", "75VA"], ["3", "F1", "Other text", "N/A"]]
      ["1", "F1", "Downlight", "150W"] rfl rfl rfl (by simp)⟩

/-! ## Wattage extraction -/

theorem takeWhile_isDigit_append (ds rest : List Char)
    (hds : ∀ c ∈ ds, c.isDigit = true)
    (hrest : ∀ c ∈ rest.head?, c.isDigit = false) :
    (ds ++ rest).takeWhile Char.isDigit = ds := by
  induction ds with
  | nil =>
    cases rest with
    | nil => rfl
    | cons c cs =>
      have : c.isDigit = false := hrest c (by simp)
      simp [List.takeWhile, this]
  | cons d ds ih =>
    have hd : d.isDigit = true := hds d (by simp)
    have := ih (fun c hc => hds c (by simp [hc]))
    simp [List.takeWhile, hd, this]

theorem parseDecimal_append_singleton (cs : List Char) (c : Char) :
    parseDecimal (cs ++ [c]) = parseDecimal cs * 10 + digitValue c := by
  simp [parseDecimal, List.foldl_append]

theorem parseDecimal_eq_ofDigits (cs : List Char) :
    parseDecimal cs = Nat.ofDigits 10 (cs.reverse.map digitValue) := by
  induction cs using List.reverseRecOn with
  | nil => simp [parseDecimal]
  | append_singleton cs c ih =>
    rw [parseDecimal_append_singleton, ih]
    simp [Nat.ofDigits_cons]
    ring

theorem Atoi_digits (ds : List Char) (hne : ds ≠ [])
    (hds : ∀ c ∈ ds, c.isDigit = true) :
    Atoi (String.mk ds) =
      if (parseDecimal ds : Int) ≤ maxInt then .ok (parseDecimal ds : Int)
      else .error .ErrRange := by
  cases ds with
  | nil => exact absurd rfl hne
  | cons c cs =>
    have hc : c.isDigit = true := hds c (by simp)
    have hminus : c ≠ '-' := by
      intro h; subst h; exact absurd hc (by decide)
    have hplus : c ≠ '+' := by
      intro h; subst h; exact absurd hc (by decide)
    have hall : (c :: cs).all Char.isDigit = true := by
      rw [List.all_eq_true]; exact hds
    unfold Atoi
    simp only [String.toList]
    split <;> rename_i hb <;> split at hb <;> simp_all

theorem extract_digit_run (ds rest : List Char)
    (hne : ds ≠ [])
    (hds : ∀ c ∈ ds, c.isDigit = true)
    (hrest : ∀ c ∈ rest.head?, c.isDigit = false)
    (hfit : Nat.ofDigits 10 (ds.reverse.map digitValue) ≤ 2 ^ 63 - 1) :
    extract (String.mk (ds ++ rest)) =
      .ok ((Nat.ofDigits 10 (ds.reverse.map digitValue) : Nat) : Int) := by
  have htake := takeWhile_isDigit_append ds rest hds hrest
  have hval := parseDecimal_eq_ofDigits ds
  have hle : (parseDecimal ds : Int) ≤ maxInt := by
    rw [hval]; unfold maxInt; omega
  have hmk : String.mk ds ≠ "" := by
    intro h
    apply hne
    have := congrArg String.data h
    simpa using this
  have hatoi : Atoi (String.mk ds) = .ok (parseDecimal ds : Int) := by
    rw [Atoi_digits ds hne hds, if_pos hle]
  simp only [extract, digitsRegexFindString, String.toList, htake, hmk, if_false, hatoi]
  rw [hval]

theorem extract_no_leading_digit (text : String)
    (h : ∀ c ∈ text.toList.head?, c.isDigit = false) :
    extract text = .error .noDigits := by
  have htake : text.toList.takeWhile Char.isDigit = [] := by
    cases hd : text.toList with
    | nil => rfl
    | cons c cs =>
      have : c.isDigit = false := h c (by rw [hd]; rfl)
      simp [List.takeWhile, this]
  simp only [extract, digitsRegexFindString, htake]
  rfl

/-- C4: a text made of a non-empty run of ASCII digits followed by anything that does not
start with a digit yields the base-10 value of that run (a natural number) whenever the
value fits in an int; what follows the run has no influence.  In particular "150W" gives
150 and "0.00VA" gives 0. -/
theorem extract_leading_digit_run (ds rest : List Char)
    (hne : ds ≠ [])
    (hds : ∀ c ∈ ds, c.isDigit = true)
    (hrest : ∀ c ∈ rest.head?, c.isDigit = false)
    (hfit : Nat.ofDigits 10 (ds.reverse.map digitValue) ≤ 2 ^ 63 - 1) :
    extract (String.mk (ds ++ rest)) =
        .ok ((Nat.ofDigits 10 (ds.reverse.map digitValue) : Nat) : Int) ∧
      extract "150W" = .ok 150 ∧ extract "0.00VA" = .ok 0 :=
  ⟨extract_digit_run ds rest hne hds hrest hfit, rfl, rfl⟩

theorem extract_leading_digit_run_witness :
    ['7', '5'] ≠ [] ∧ (∀ c ∈ ['7', '5'], c.isDigit = true) ∧
    (∀ c ∈ ['V', 'A'].head?, c.isDigit = false) ∧
    Nat.ofDigits 10 (['7', '5'].reverse.map digitValue) ≤ 2 ^ 63 - 1 ∧
    (extract (String.mk (['7', '5'] ++ ['V', 'A'])) =
        .ok ((Nat.ofDigits 10 (['7', '5'].reverse.map digitValue) : Nat) : Int) ∧
      extract "150W" = .ok 150 ∧ extract "0.00VA" = .ok 0) :=
  ⟨by decide, by decide, by decide, by decide,
    extract_leading_digit_run ['7', '5'] ['V', 'A'] (by decide) (by decide) (by decide)
      (by decide)⟩

/-! ## Rendering -/

theorem Execute_canWrite (nodes : List Node) (d : TemplateData) :
    ∀ out : File, out.canWrite = true →
      Execute nodes out d =
        ({ out with content := out.content ++ executeText nodes d }, true) := by
  induction nodes with
  | nil =>
    intro out _
    simp [Execute, executeText]
  | cons n ns ih =>
    intro out hw
    simp only [Execute, File.WriteString, hw, if_true]
    rw [ih _ rfl]
    simp [executeText, String.append_assoc]

set_option maxRecDepth 100000 in
theorem executeText_template (k p : Int) (f : FixtureInfo) :
    executeText CCKFixtureTemplate { Index := k, ListPosition := p, Fixture := f } =
      specBlock k p f.ID f.Description f.VA f.Count := by
  apply String.ext
  simp only [executeText, CCKFixtureTemplate, specBlock, Node.eval, formatInt,
    String.intercalate, String.intercalate.go, String.data_append, List.append_assoc]
  rfl

theorem renderStep_canWrite (out : File) (k p : Int) (f : FixtureInfo)
    (hw : out.canWrite = true) :
    renderStep out k p f =
      (out.append ("\r\n" ++
          executeText CCKFixtureTemplate { Index := k, ListPosition := p, Fixture := f }),
        .ok (wrapInt (k + 1), wrapInt (p + 1))) := by
  obtain ⟨c, w⟩ := out
  simp only at hw
  subst hw
  have h := Execute_canWrite CCKFixtureTemplate
    { Index := k, ListPosition := p, Fixture := f }
    { content := c ++ "\r\n", canWrite := true } rfl
  simp only [renderStep, File.WriteString, if_true, h, String.append_assoc, File.append]

theorem renderLoop_canWrite (order : List FixtureInfo) :
    ∀ (out : File) (s : Nat), out.canWrite = true → s + order.length < 2 ^ 63 →
      renderLoop out s s order =
        (out.append (concatAll
            (List.zipWith (fun (k : Nat) f => "\r\n" ++ executeText CCKFixtureTemplate
                { Index := k, ListPosition := k, Fixture := f })
              (List.range' s order.length) order)),
          .ok (((s + order.length : Nat) : Int), ((s + order.length : Nat) : Int))) := by
  induction order with
  | nil =>
    intro out s _ _
    simp [renderLoop, concatAll, File.append]
  | cons f rest ih =>
    intro out s hw hlen
    simp only [List.length_cons] at hlen
    have hnext : wrapInt ((s : Int) + 1) = ((s + 1 : Nat) : Int) := by
      have h1 : minInt ≤ (s : Int) + 1 := by unfold minInt; omega
      have h2 : (s : Int) + 1 ≤ maxInt := by unfold maxInt; omega
      rw [wrapInt_eq_self h1 h2]; simp
    simp only [renderLoop, renderStep_canWrite out s s f hw, hnext]
    have hw' : (out.append ("\r\n" ++ executeText CCKFixtureTemplate
        { Index := s, ListPosition := s, Fixture := f })).canWrite = true := hw
    rw [ih _ (s + 1) hw' (by omega)]
    simp [List.range'_succ, concatAll, String.append_assoc, File.append]
    omega

theorem renderStep_specBlock (out : File) (k p : Int) (f : FixtureInfo)
    (hw : out.canWrite = true) :
    renderStep out k p f =
      (out.append ("\r\n" ++ specBlock k p f.ID f.Description f.VA f.Count),
        .ok (wrapInt (k + 1), wrapInt (p + 1))) := by
  rw [renderStep_canWrite out k p f hw, executeText_template]

/-- C6: on an output that accepts writes, one pass of the rendering loop for an aggregate
with index k and list position p appends exactly a CRLF followed by the block of the
output format filled with k, p, the identifier (twice), the description, the wattage
and the count; the block ends with its closing parenthesis. -/
theorem block_bytes (out : File) (k p : Int) (f : FixtureInfo)
    (hw : out.canWrite = true) :
    renderStep out k p f =
      (out.append ("\r\n" ++ specBlock k p f.ID f.Description f.VA f.Count),
        .ok (wrapInt (k + 1), wrapInt (p + 1))) :=
  renderStep_specBlock out k p f hw

theorem block_bytes_witness :
    emptyWritable.canWrite = true ∧
    renderStep emptyWritable 1 1 ⟨"F1", "Downlight", 150, 2⟩ =
      (emptyWritable.append ("\r\n" ++ specBlock 1 1 "F1" "Downlight" 150 2),
        .ok (wrapInt (1 + 1), wrapInt (1 + 1))) :=
  ⟨rfl, block_bytes emptyWritable 1 1 ⟨"F1", "Downlight", 150, 2⟩ rfl⟩

theorem perm_pair {α : Type} {a b : α} {l : List α} (h : l.Perm [a, b]) :
    l = [a, b] ∨ l = [b, a] := by
  have hlen := h.length_eq
  match l, hlen with
  | [x, y], _ =>
    have hx : x ∈ [a, b] := h.subset (by simp)
    have hy : y ∈ [a, b] := h.subset (by simp)
    have ha : a ∈ [x, y] := h.symm.subset (by simp)
    have hb : b ∈ [x, y] := h.symm.subset (by simp)
    simp only [List.mem_cons, List.mem_singleton, List.not_mem_nil, or_false] at hx hy ha hb
    rcases hx with rfl | rfl
    · rcases hy with rfl | rfl
      · rcases hb with rfl | rfl <;> simp
      · simp
    · rcases hy with rfl | rfl
      · simp
      · rcases ha with rfl | rfl <;> simp

theorem renderLoop_scenario (out : File) (order : List FixtureInfo)
    (hw : out.canWrite = true) (hperm : order.Perm (mapValues scenarioFixtures)) :
    (renderLoop out 1 1 order =
        (out.append (("\r\n" ++ specBlock 1 1 "F1" "Downlight" 150 2) ++
            ("\r\n" ++ specBlock 2 2 "F2" "Wallwasher" 75 1)), .ok (3, 3)) ∨
     renderLoop out 1 1 order =
        (out.append (("\r\n" ++ specBlock 1 1 "F2" "Wallwasher" 75 1) ++
            ("\r\n" ++ specBlock 2 2 "F1" "Downlight" 150 2)), .ok (3, 3))) := by
  have hcases := perm_pair (show order.Perm
    [⟨"F1", "Downlight", 150, 2⟩, ⟨"F2", "Wallwasher", 75, 1⟩] from hperm)
  have hone : wrapInt (1 + 1) = 2 := by decide
  have htwo : wrapInt (2 + 1) = 3 := by decide
  rcases hcases with rfl | rfl
  · left
    simp only [renderLoop, renderStep_specBlock _ _ _ _ hw, hone, htwo]
    rw [renderStep_specBlock _ 2 2 _ (show (out.append _).canWrite = true from hw)]
    simp only [File.append, String.append_assoc]
    rw [htwo]
  · right
    simp only [renderLoop, renderStep_specBlock _ _ _ _ hw, hone, htwo]
    rw [renderStep_specBlock _ 2 2 _ (show (out.append _).canWrite = true from hw)]
    simp only [File.append, String.append_assoc]
    rw [htwo]

/-! ## Records with a new identifier, records with a known one -/

theorem readLoop_cons_ok {fx fx' : Fixtures} {line : Int} {a id d w : String}
    (rest : List (List String)) (h : processRecord fx [a, id, d, w] line = .ok fx') :
    readLoop fx line ([a, id, d, w] :: rest) = readLoop fx' line rest := by
  simp [readLoop, FieldsPerRecord, h]

theorem readLoop_cons_error {fx : Fixtures} {line : Int} {a id d w : String} {e : Fatal}
    (rest : List (List String)) (h : processRecord fx [a, id, d, w] line = .error e) :
    readLoop fx line ([a, id, d, w] :: rest) = .error e := by
  simp [readLoop, FieldsPerRecord, h]

theorem processRecord_new_no_digit (fx : Fixtures) (line : Int) (a id d w : String)
    (habs : mapGet id fx = none) (h : ∀ c ∈ w.toList.head?, c.isDigit = false) :
    processRecord fx [a, id, d, w] line = .error (.matchDigits [a, id, d, w] line) := by
  simp [processRecord, habs, extract_no_leading_digit w h]

theorem processRecord_new_ok (fx : Fixtures) (line : Int) (a id d w : String) (va : Int)
    (habs : mapGet id fx = none) (h : extract w = .ok va) :
    processRecord fx [a, id, d, w] line = .ok (mapSet id (NewFixtureInfo id d va) fx) := by
  simp [processRecord, habs, h]

/-- C5: for a record whose identifier is not yet in the aggregate collection, the run
stops at that record with the digit-matching diagnostic when the wattage text does not
start with an ASCII digit, and goes on to the next record, with a new aggregate stored,
when the text starts with a digit run whose value fits in an int.  The texts "VA150",
"" and "N/A" each stop the run. -/
theorem new_identifier_fails_iff_no_leading_digit (fixtures : Fixtures) (line : Int)
    (a id desc : String) (rest : List (List String))
    (habs : mapGet id fixtures = none) :
    (∀ text : String, (∀ c ∈ text.toList.head?, c.isDigit = false) →
      readLoop fixtures line ([a, id, desc, text] :: rest) =
        .error (.matchDigits [a, id, desc, text] line)) ∧
    (∀ ds tail : List Char, ds ≠ [] → (∀ c ∈ ds, c.isDigit = true) →
      (∀ c ∈ tail.head?, c.isDigit = false) →
      Nat.ofDigits 10 (ds.reverse.map digitValue) ≤ 2 ^ 63 - 1 →
      ∃ fixtures', processRecord fixtures [a, id, desc, String.mk (ds ++ tail)] line =
          .ok fixtures' ∧
        readLoop fixtures line ([a, id, desc, String.mk (ds ++ tail)] :: rest) =
          readLoop fixtures' line rest) ∧
    (∀ text ∈ ["VA150", "", "N/A"],
      readLoop fixtures line ([a, id, desc, text] :: rest) =
        .error (.matchDigits [a, id, desc, text] line)) := by
  have hfail : ∀ text : String, (∀ c ∈ text.toList.head?, c.isDigit = false) →
      readLoop fixtures line ([a, id, desc, text] :: rest) =
        .error (.matchDigits [a, id, desc, text] line) := fun text h =>
    readLoop_cons_error rest (processRecord_new_no_digit fixtures line a id desc text habs h)
  refine ⟨hfail, ?_, ?_⟩
  · intro ds tail hne hds htail hfit
    have hex := extract_digit_run ds tail hne hds htail hfit
    have hp := processRecord_new_ok fixtures line a id desc _ _ habs hex
    exact ⟨_, hp, readLoop_cons_ok rest hp⟩
  · intro text htext
    simp only [List.mem_cons, List.mem_singleton, List.not_mem_nil, or_false] at htext
    rcases htext with rfl | rfl | rfl
    · exact hfail _ (by decide)
    · exact hfail _ (by decide)
    · exact hfail _ (by decide)

theorem new_identifier_fails_iff_no_leading_digit_witness :
    mapGet "F3" scenarioFixtures = none ∧
    readLoop scenarioFixtures 2 (["4", "F3", "Spot", "N/A"] :: []) =
      .error (.matchDigits ["4", "F3", "Spot", "N/A"] 2) ∧
    (∃ fixtures', processRecord scenarioFixtures
          ["4", "F3", "Spot", String.mk (['7', '5'] ++ ['V', 'A'])] 2 = .ok fixtures' ∧
        readLoop scenarioFixtures 2
            (["4", "F3", "Spot", String.mk (['7', '5'] ++ ['V', 'A'])] :: []) =
          readLoop fixtures' 2 []) :=
  ⟨rfl,
    (new_identifier_fails_iff_no_leading_digit scenarioFixtures 2 "4" "F3" "Spot" [] rfl).1
      "N/A" (by decide),
    (new_identifier_fails_iff_no_leading_digit scenarioFixtures 2 "4" "F3" "Spot" [] rfl).2.1
      ['7', '5'] ['V', 'A'] (by decide) (by decide) (by decide) (by decide)⟩

theorem processRecord_present (fx : Fixtures) (line : Int) (a id d w : String)
    (f : FixtureInfo) (h : mapGet id fx = some f) :
    processRecord fx [a, id, d, w] line = .ok (mapUpdate id (fun f => f.Add 1) fx) := by
  simp [processRecord, h]

/-- C9: a record whose identifier is already in the aggregate collection never stops the
run, whatever its wattage text: the loop goes on to the next record with the Count of
that aggregate incremented by 1 (in 64-bit arithmetic, which is the exact sum below the
largest int), its other fields, every other aggregate and the key set unchanged.  The
rows F1/150W then F1/N/A aggregate to F1 with wattage 150 and count 2. -/
theorem repeated_identifier_only_counts (fixtures : Fixtures) (line : Int)
    (a id desc text : String) (rest : List (List String)) (f : FixtureInfo)
    (hpresent : mapGet id fixtures = some f) :
    (∃ fixtures', processRecord fixtures [a, id, desc, text] line = .ok fixtures' ∧
      readLoop fixtures line ([a, id, desc, text] :: rest) = readLoop fixtures' line rest ∧
      mapGet id fixtures' = some { f with Count := wrapInt (f.Count + 1) } ∧
      (minInt ≤ f.Count → f.Count < maxInt → wrapInt (f.Count + 1) = f.Count + 1) ∧
      (∀ j, j ≠ id → mapGet j fixtures' = mapGet j fixtures) ∧
      mapKeys fixtures' = mapKeys fixtures) ∧
    aggregate false sameIdRows =
      .ok [("F1", { ID := "F1", Description := "Downlight", VA := 150, Count := 2 })] := by
  refine ⟨?_, rfl⟩
  have hp := processRecord_present fixtures line a id desc text f hpresent
  refine ⟨_, hp, readLoop_cons_ok rest hp, ?_, ?_, ?_, mapKeys_mapUpdate _ _ _⟩
  · rw [mapGet_mapUpdate, if_pos rfl, hpresent]
    rfl
  · intro hlo hhi
    apply wrapInt_eq_self
    · unfold minInt at *; omega
    · unfold maxInt at *; omega
  · intro j hj
    rw [mapGet_mapUpdate, if_neg hj]

theorem repeated_identifier_only_counts_witness :
    mapGet "F1" scenarioFixtures = some ⟨"F1", "Downlight", 150, 2⟩ ∧
    ((∃ fixtures', processRecord scenarioFixtures ["4", "F1", "Spot", "N/A"] 2 = .ok fixtures' ∧
      readLoop scenarioFixtures 2 (["4", "F1", "Spot", "N/A"] :: []) =
        readLoop fixtures' 2 [] ∧
      mapGet "F1" fixtures' =
        some { (⟨"F1", "Downlight", 150, 2⟩ : FixtureInfo) with Count := wrapInt (2 + 1) } ∧
      (minInt ≤ (2 : Int) → (2 : Int) < maxInt → wrapInt (2 + 1) = 2 + 1) ∧
      (∀ j, j ≠ "F1" → mapGet j fixtures' = mapGet j scenarioFixtures) ∧
      mapKeys fixtures' = mapKeys scenarioFixtures) ∧
    aggregate false sameIdRows =
      .ok [("F1", { ID := "F1", Description := "Downlight", VA := 150, Count := 2 })]) :=
  ⟨rfl, repeated_identifier_only_counts scenarioFixtures 2 "4" "F1" "Spot" "N/A" []
    ⟨"F1", "Downlight", 150, 2⟩ rfl⟩

/-- C10: with header=true, a record on line 3 of the input whose wattage text has no
digits stops the run with a diagnostic that names line 2: the variable line is not
advanced by the reading loop. -/
theorem reported_line_is_not_the_record_line :
    badThirdLineRows[2]? = some ["2", "F2", "Wallwasher", "N/A"] ∧
    aggregate true badThirdLineRows =
      .error (.matchDigits ["2", "F2", "Wallwasher", "N/A"] 2) :=
  ⟨rfl, rfl⟩

/-! ## Field counts and the header -/

theorem processRecord_ne_readRecord (fx : Fixtures) (record : List String) (line : Int)
    (rec : List String) (err : ReadError) :
    processRecord fx record line ≠ .error (.readRecord rec err) := by
  unfold processRecord
  intro h
  split at h
  · simp at h
  · split at h
    · simp at h
    · split at h
      · simp at h
      · split at h
        · simp at h
        · simp at h
        · split at h <;> simp at h

theorem readLoop_ne_readRecord (records : List (List String))
    (hall : ∀ r ∈ records, r.length = 4) (rec : List String) (err : ReadError) :
    ∀ (fx : Fixtures) (line : Int), readLoop fx line records ≠ .error (.readRecord rec err) := by
  induction records with
  | nil => intro fx line; simp [readLoop]
  | cons r rest ih =>
    intro fx line
    have hr : r.length = 4 := hall r (by simp)
    have hrest : ∀ r' ∈ rest, r'.length = 4 := fun r' h' => hall r' (by simp [h'])
    simp only [readLoop, FieldsPerRecord, hr, ne_eq, not_true_eq_false, if_false]
    cases hp : processRecord fx r line with
    | error e =>
      simp only
      intro h
      injection h with h
      exact processRecord_ne_readRecord fx r line rec err (by rw [hp, h])
    | ok fx1 => exact ih hrest fx1 line

theorem readLoop_bad_length (fx : Fixtures) (line : Int) (bad : List String)
    (rest : List (List String)) (h : bad.length ≠ 4) :
    readLoop fx line (bad :: rest) = .error (.readRecord bad .ErrFieldCount) := by
  simp [readLoop, FieldsPerRecord, h]

theorem readLoop_error_of_bad_length (records : List (List String))
    (hbad : ∃ r ∈ records, r.length ≠ 4) :
    ∀ (fx : Fixtures) (line : Int), ∃ e, readLoop fx line records = .error e := by
  induction records with
  | nil => obtain ⟨r, hr, _⟩ := hbad; simp at hr
  | cons r rest ih =>
    intro fx line
    by_cases hr : r.length = 4
    · have hrest : ∃ r' ∈ rest, r'.length ≠ 4 := by
        obtain ⟨r', hr', hlen⟩ := hbad
        rcases List.mem_cons.mp hr' with h | h
        · subst h; exact absurd hr hlen
        · exact ⟨r', h, hlen⟩
      simp only [readLoop, FieldsPerRecord, hr, ne_eq, not_true_eq_false, if_false]
      cases hp : processRecord fx r line with
      | error e => exact ⟨e, rfl⟩
      | ok fx1 => exact ih hrest fx1 line
    · exact ⟨_, readLoop_bad_length fx line r rest hr⟩

/-- C11: a data record without exactly 4 fields makes the run fail: the reading loop
stops at it with the record-reading diagnostic, and aggregation of an input with such a
record never succeeds.  Data records that all have 4 fields never stop the loop with
that diagnostic, and the end of the input ends the loop without error. -/
theorem field_count_is_checked (header : Bool) (input : List (List String)) :
    ((∃ r ∈ dataRecords header input, r.length ≠ 4) →
      ∃ e, aggregate header input = .error e) ∧
    (∀ (fx : Fixtures) (line : Int) (bad : List String) (rest : List (List String)),
      bad.length ≠ 4 →
      readLoop fx line (bad :: rest) = .error (.readRecord bad .ErrFieldCount)) ∧
    ((∀ r ∈ dataRecords header input, r.length = 4) →
      ∀ (fx : Fixtures) (line : Int) (rec : List String) (err : ReadError),
        readLoop fx line (dataRecords header input) ≠ .error (.readRecord rec err)) ∧
    (∀ (fx : Fixtures) (line : Int), readLoop fx line [] = .ok fx) ∧
    aggregate false [["1", "F1", "Downlight", "150W"], ["2", "F2", "Spot"]] =
      .error (.readRecord ["2", "F2", "Spot"] .ErrFieldCount) := by
  refine ⟨?_, readLoop_bad_length, ?_, fun _ _ => rfl, rfl⟩
  · intro hbad
    cases header with
    | false => exact readLoop_error_of_bad_length _ hbad [] 1
    | true =>
      cases input with
      | nil => obtain ⟨r, hr, _⟩ := hbad; simp [dataRecords] at hr
      | cons first rest =>
        by_cases hl : first.length = FieldsPerRecord
        · obtain ⟨e, he⟩ := readLoop_error_of_bad_length rest
            (by simpa [dataRecords] using hbad) [] (wrapInt (1 + 1))
          exact ⟨e, by simpa [aggregate, hl] using he⟩
        · exact ⟨.readHeader .ErrFieldCount, by simp [aggregate, hl]⟩
  · intro hall fx line rec err
    exact readLoop_ne_readRecord _ hall rec err fx line

theorem field_count_is_checked_witness :
    (∃ e, aggregate false [["1", "F1", "Downlight", "150W"], ["2", "F2", "Spot"]] =
      .error e) ∧
    readLoop [] 1 (["2", "F2", "Spot"] :: []) =
      .error (.readRecord ["2", "F2", "Spot"] .ErrFieldCount) ∧
    readLoop [] 2 (dataRecords true scenarioRows) ≠
      .error (.readRecord ["2", "F2", "Spot"] .ErrFieldCount) :=
  ⟨(field_count_is_checked false [["1", "F1", "Downlight", "150W"], ["2", "F2", "Spot"]]).1
      ⟨["2", "F2", "Spot"], by decide, by decide⟩,
    (field_count_is_checked false []).2.1 [] 1 ["2", "F2", "Spot"] [] (by decide),
    (field_count_is_checked true scenarioRows).2.2.1 (by decide) [] 2 ["2", "F2", "Spot"]
      .ErrFieldCount⟩

/-- C12: with header=true and an input without any record, the run stops while reading
the header, on every platform and whatever the output path holds, and leaves the output
as it was. -/
theorem empty_input_with_header_is_fatal (platform : Platform) (outputFile : Option String)
    (rangeOrder : Fixtures → List FixtureInfo) :
    aggregate true [] = .error (.readHeader .EOF) ∧
    (main platform true (some []) outputFile rangeOrder).result =
      .error (.readHeader .EOF) ∧
    (main platform true (some []) outputFile rangeOrder).output = outputFile :=
  ⟨rfl, rfl, rfl⟩

/-- C17: with header=true a first record without exactly 4 fields stops the run while
the header is read, leaving the output as it was; a first record with 4 fields has no
other influence: the loop runs over the remaining records from the empty map. -/
theorem header_row_is_field_checked (first : List String) (rest : List (List String)) :
    (first.length ≠ 4 →
      aggregate true (first :: rest) = .error (.readHeader .ErrFieldCount) ∧
      ∀ (platform : Platform) (outputFile : Option String)
        (rangeOrder : Fixtures → List FixtureInfo),
        (main platform true (some (first :: rest)) outputFile rangeOrder).result =
          .error (.readHeader .ErrFieldCount) ∧
        (main platform true (some (first :: rest)) outputFile rangeOrder).output =
          outputFile) ∧
    (first.length = 4 → aggregate true (first :: rest) = readLoop [] 2 rest) := by
  constructor
  · intro h
    have hagg : aggregate true (first :: rest) = .error (.readHeader .ErrFieldCount) := by
      simp [aggregate, FieldsPerRecord, h]
    refine ⟨hagg, ?_⟩
    intro platform outputFile rangeOrder
    simp [main, hagg]
  · intro h
    have h2 : wrapInt 2 = 2 := by decide
    simp [aggregate, FieldsPerRecord, h, h2]

theorem header_row_is_field_checked_witness :
    ["id", "fixtureId", "va"].length ≠ 4 ∧
    ["id", "fixtureId", "description", "va"].length = 4 ∧
    aggregate true (["id", "fixtureId", "va"] :: [["1", "F1", "Downlight", "150W"]]) =
      .error (.readHeader .ErrFieldCount) ∧
    aggregate true (["id", "fixtureId", "description", "va"] ::
        [["1", "F1", "Downlight", "150W"]]) =
      readLoop [] 2 [["1", "F1", "Downlight", "150W"]] :=
  ⟨by decide, by decide,
    ((header_row_is_field_checked ["id", "fixtureId", "va"]
      [["1", "F1", "Downlight", "150W"]]).1 (by decide)).1,
    (header_row_is_field_checked ["id", "fixtureId", "description", "va"]
      [["1", "F1", "Downlight", "150W"]]).2 (by decide)⟩

/-- C14: nothing is written before the input has been read and aggregated to the end:
when aggregation fails, the run ends with that failure and the output path holds what it
held before, on every platform.  A missing header, a record of 3 fields, a wattage text
without digits and a wattage that overflows are such failures. -/
theorem failed_aggregation_writes_nothing (platform : Platform) (header : Bool)
    (input : List (List String)) (outputFile : Option String)
    (rangeOrder : Fixtures → List FixtureInfo) (e : Fatal)
    (h : aggregate header input = .error e) :
    main platform header (some input) outputFile rangeOrder =
      { output := outputFile, result := .error e } ∧
    aggregate true [] = .error (.readHeader .EOF) ∧
    aggregate false [["1", "F1", "Downlight"]] =
      .error (.readRecord ["1", "F1", "Downlight"] .ErrFieldCount) ∧
    aggregate false [["1", "F1", "Downlight", "N/A"]] =
      .error (.matchDigits ["1", "F1", "Downlight", "N/A"] 1) ∧
    aggregate false [["1", "F1", "Downlight", "9223372036854775808W"]] =
      .error (.convertVA 1 .ErrRange) := by
  refine ⟨?_, rfl, rfl, rfl, rfl⟩
  simp [main, h]

theorem failed_aggregation_writes_nothing_witness :
    aggregate false [["1", "F1", "Downlight", "150W"], ["2", "F2", "Spot", "N/A"]] =
      .error (.matchDigits ["2", "F2", "Spot", "N/A"] 1) ∧
    main .windows false (some [["1", "F1", "Downlight", "150W"], ["2", "F2", "Spot", "N/A"]])
        (some "earlier blocks") mapValues =
      { output := some "earlier blocks",
        result := .error (.matchDigits ["2", "F2", "Spot", "N/A"] 1) } :=
  ⟨rfl,
    (failed_aggregation_writes_nothing .windows false
      [["1", "F1", "Downlight", "150W"], ["2", "F2", "Spot", "N/A"]]
      (some "earlier blocks") mapValues _ rfl).1⟩

/-! ## Wattages beyond the range of an int -/

theorem extract_digit_run_overflow (ds rest : List Char)
    (hne : ds ≠ [])
    (hds : ∀ c ∈ ds, c.isDigit = true)
    (hrest : ∀ c ∈ rest.head?, c.isDigit = false)
    (hbig : 2 ^ 63 - 1 < Nat.ofDigits 10 (ds.reverse.map digitValue)) :
    extract (String.mk (ds ++ rest)) = .error (.convert .ErrRange) := by
  have htake := takeWhile_isDigit_append ds rest hds hrest
  have hval := parseDecimal_eq_ofDigits ds
  have hnle : ¬ (parseDecimal ds : Int) ≤ maxInt := by
    rw [hval]; unfold maxInt; omega
  have hmk : String.mk ds ≠ "" := by
    intro h
    apply hne
    have := congrArg String.data h
    simpa using this
  have hatoi : Atoi (String.mk ds) = .error .ErrRange := by
    rw [Atoi_digits ds hne hds, if_neg hnle]
  simp only [extract, digitsRegexFindString, String.toList, htake, hmk, if_false, hatoi]

theorem processRecord_new_overflow (fx : Fixtures) (line : Int) (a id d w : String)
    (habs : mapGet id fx = none) (h : extract w = .error (.convert .ErrRange)) :
    processRecord fx [a, id, d, w] line = .error (.convertVA line .ErrRange) := by
  simp [processRecord, habs, h]

/-- C13: for a record whose identifier is not yet in the aggregate collection and whose
wattage text starts with a digit run, the run stops at that record with the conversion
diagnostic when the base-10 value of the run exceeds 2^63 - 1, and no aggregate is
stored; when the value fits, the aggregate stored has exactly that value as wattage. -/
theorem wattage_overflow_is_fatal (fixtures : Fixtures) (line : Int)
    (a id desc : String) (rest : List (List String)) (ds tail : List Char)
    (habs : mapGet id fixtures = none)
    (hne : ds ≠ [])
    (hds : ∀ c ∈ ds, c.isDigit = true)
    (htail : ∀ c ∈ tail.head?, c.isDigit = false) :
    (2 ^ 63 - 1 < Nat.ofDigits 10 (ds.reverse.map digitValue) →
      processRecord fixtures [a, id, desc, String.mk (ds ++ tail)] line =
        .error (.convertVA line .ErrRange) ∧
      readLoop fixtures line ([a, id, desc, String.mk (ds ++ tail)] :: rest) =
        .error (.convertVA line .ErrRange)) ∧
    (Nat.ofDigits 10 (ds.reverse.map digitValue) ≤ 2 ^ 63 - 1 →
      ∃ fixtures', processRecord fixtures [a, id, desc, String.mk (ds ++ tail)] line =
          .ok fixtures' ∧
        mapGet id fixtures' = some
          { ID := id, Description := desc,
            VA := ((Nat.ofDigits 10 (ds.reverse.map digitValue) : Nat) : Int),
            Count := 1 }) := by
  constructor
  · intro hbig
    have hex := extract_digit_run_overflow ds tail hne hds htail hbig
    have hp := processRecord_new_overflow fixtures line a id desc _ habs hex
    exact ⟨hp, readLoop_cons_error rest hp⟩
  · intro hfit
    have hex := extract_digit_run ds tail hne hds htail hfit
    have hp := processRecord_new_ok fixtures line a id desc _ _ habs hex
    refine ⟨_, hp, ?_⟩
    rw [mapGet_mapSet, if_pos rfl]
    rfl

theorem wattage_overflow_is_fatal_witness :
    mapGet "F3" scenarioFixtures = none ∧
    "9223372036854775808".toList ≠ [] ∧
    (∀ c ∈ "9223372036854775808".toList, c.isDigit = true) ∧
    (∀ c ∈ ['W'].head?, c.isDigit = false) ∧
    2 ^ 63 - 1 < Nat.ofDigits 10 ("9223372036854775808".toList.reverse.map digitValue) ∧
    readLoop scenarioFixtures 2
        (["4", "F3", "Spot", String.mk ("9223372036854775808".toList ++ ['W'])] :: []) =
      .error (.convertVA 2 .ErrRange) ∧
    (∃ fixtures', processRecord scenarioFixtures
          ["4", "F3", "Spot", String.mk ("9223372036854775807".toList ++ ['W'])] 2 =
          .ok fixtures' ∧
        mapGet "F3" fixtures' = some
          { ID := "F3", Description := "Spot",
            VA := ((Nat.ofDigits 10
              ("9223372036854775807".toList.reverse.map digitValue) : Nat) : Int),
            Count := 1 }) :=
  ⟨rfl, by decide, by decide, by decide, by decide,
    ((wattage_overflow_is_fatal scenarioFixtures 2 "4" "F3" "Spot" []
      "9223372036854775808".toList ['W'] rfl (by decide) (by decide) (by decide)).1
      (by decide)).2,
    (wattage_overflow_is_fatal scenarioFixtures 2 "4" "F3" "Spot" []
      "9223372036854775807".toList ['W'] rfl (by decide) (by decide) (by decide)).2
      (by decide)⟩

/-! ## The output file -/

theorem renderLoop_readOnly (order : List FixtureInfo) (out : File) (index p : Int)
    (hw : out.canWrite = false) (hne : order ≠ []) :
    renderLoop out index p order = (out, .error .executeTemplate) := by
  cases order with
  | nil => exact absurd rfl hne
  | cons f rest =>
    simp [renderLoop, renderStep, File.WriteString, hw, Execute, CCKFixtureTemplate]

theorem main_windows_appends (header : Bool) (input : List (List String)) (prior : String)
    (rangeOrder : Fixtures → List FixtureInfo) (fx : Fixtures)
    (hok : aggregate header input = .ok fx)
    (hlen : (rangeOrder fx).length < 2 ^ 63 - 1) :
    main .windows header (some input) (some prior) rangeOrder =
      { output := some (prior ++ concatAll
          (List.zipWith (fun (k : Nat) f => "\r\n" ++ executeText CCKFixtureTemplate
              { Index := k, ListPosition := k, Fixture := f })
            (List.range' 1 (rangeOrder fx).length) (rangeOrder fx))),
        result := .ok fx.length } := by
  have h := renderLoop_canWrite (rangeOrder fx) { content := prior, canWrite := true } 1 rfl
    (by omega)
  simp only [Nat.cast_one] at h
  simp [main, hok, OpenFile, O_APPEND, OpenFlag.grantsWrite, h, File.append]

theorem main_posix_fails (header : Bool) (input : List (List String)) (prior : String)
    (rangeOrder : Fixtures → List FixtureInfo) (fx : Fixtures)
    (hok : aggregate header input = .ok fx) (hne : rangeOrder fx ≠ []) :
    main .posix header (some input) (some prior) rangeOrder =
      { output := some prior, result := .error .executeTemplate } := by
  have hloop := renderLoop_readOnly (rangeOrder fx)
    { content := prior, canWrite := false } 1 1 rfl hne
  simp [main, hok, OpenFile, O_APPEND, OpenFlag.grantsWrite, hloop]

/-- C7: for an input that aggregates to n aggregates, n at least 1, and an existing
output file, main starts both counters at 1 and increments both after each block.  On
Windows it appends n blocks, the k-th executed with Index k and ListPosition k for
k = 1, ..., n in traversal order.  On a POSIX system the descriptor opened on line 115
rejects writes: the run stops at the first block and no index is written. -/
theorem indices_written_by_main (header : Bool) (input : List (List String))
    (prior : String) (rangeOrder : Fixtures → List FixtureInfo) (fx : Fixtures)
    (hok : aggregate header input = .ok fx)
    (hperm : (rangeOrder fx).Perm (mapValues fx))
    (hpos : 0 < fx.length)
    (hlen : fx.length < 2 ^ 63 - 1) :
    main .windows header (some input) (some prior) rangeOrder =
      { output := some (prior ++ concatAll
          (List.zipWith (fun (k : Nat) f => "\r\n" ++ executeText CCKFixtureTemplate
              { Index := k, ListPosition := k, Fixture := f })
            (List.range' 1 fx.length) (rangeOrder fx))),
        result := .ok fx.length } ∧
    main .posix header (some input) (some prior) rangeOrder =
      { output := some prior, result := .error .executeTemplate } := by
  have hn : (rangeOrder fx).length = fx.length := by
    rw [hperm.length_eq]; simp [mapValues]
  constructor
  · have h := main_windows_appends header input prior rangeOrder fx hok (by omega)
    rw [hn] at h
    exact h
  · apply main_posix_fails header input prior rangeOrder fx hok
    intro hnil
    rw [hnil] at hn
    simp at hn
    omega

theorem indices_written_by_main_witness :
    aggregate false repeatRows = .ok repeatFixtures ∧
    (mapValues repeatFixtures).Perm (mapValues repeatFixtures) ∧
    0 < repeatFixtures.length ∧
    repeatFixtures.length < 2 ^ 63 - 1 ∧
    (main .windows false (some repeatRows) (some "") mapValues =
      { output := some ("" ++ concatAll
          (List.zipWith (fun (k : Nat) f => "\r\n" ++ executeText CCKFixtureTemplate
              { Index := k, ListPosition := k, Fixture := f })
            (List.range' 1 repeatFixtures.length) (mapValues repeatFixtures))),
        result := .ok repeatFixtures.length } ∧
    main .posix false (some repeatRows) (some "") mapValues =
      { output := some "", result := .error .executeTemplate }) :=
  ⟨rfl, List.Perm.refl _, by decide, by decide,
    indices_written_by_main false repeatRows "" mapValues repeatFixtures rfl
      (List.Perm.refl _) (by decide) (by decide)⟩

/-- C8: the round-trip scenario with an existing output file.  Under header=true the
four rows aggregate to F1 (Downlight, 150, count 2) and F2 (Wallwasher, 75, count 1).
On Windows main appends, for every traversal order of the two aggregates, exactly two
blocks, index 1 then index 2, the orders differing only in which aggregate comes first.
On a POSIX system the descriptor opened on line 115 rejects writes: the run stops at the
first block with the template diagnostic and the file holds what it held before. -/
theorem scenario_run_by_main (prior : String) (rangeOrder : Fixtures → List FixtureInfo)
    (hperm : (rangeOrder scenarioFixtures).Perm (mapValues scenarioFixtures)) :
    aggregate true scenarioRows = .ok scenarioFixtures ∧
    (main .windows true (some scenarioRows) (some prior) rangeOrder =
        { output := some (prior ++ (("\r\n" ++ specBlock 1 1 "F1" "Downlight" 150 2) ++
            ("\r\n" ++ specBlock 2 2 "F2" "Wallwasher" 75 1))),
          result := .ok 2 } ∨
     main .windows true (some scenarioRows) (some prior) rangeOrder =
        { output := some (prior ++ (("\r\n" ++ specBlock 1 1 "F2" "Wallwasher" 75 1) ++
            ("\r\n" ++ specBlock 2 2 "F1" "Downlight" 150 2))),
          result := .ok 2 }) ∧
    main .posix true (some scenarioRows) (some prior) rangeOrder =
      { output := some prior, result := .error .executeTemplate } := by
  have hagg : aggregate true scenarioRows = .ok scenarioFixtures := rfl
  refine ⟨hagg, ?_, ?_⟩
  · have hloop := renderLoop_scenario { content := prior, canWrite := true }
      (rangeOrder scenarioFixtures) rfl hperm
    rcases hloop with h | h
    · left
      simp [main, hagg, OpenFile, O_APPEND, OpenFlag.grantsWrite, h, File.append]
      rfl
    · right
      simp [main, hagg, OpenFile, O_APPEND, OpenFlag.grantsWrite, h, File.append]
      rfl
  · apply main_posix_fails true scenarioRows prior rangeOrder scenarioFixtures hagg
    intro hnil
    have := hperm.length_eq
    rw [hnil] at this
    simp [mapValues, scenarioFixtures] at this

theorem scenario_run_by_main_witness :
    (mapValues scenarioFixtures).Perm (mapValues scenarioFixtures) ∧
    (aggregate true scenarioRows = .ok scenarioFixtures ∧
    (main .windows true (some scenarioRows) (some "earlier blocks") mapValues =
        { output := some ("earlier blocks" ++
            (("\r\n" ++ specBlock 1 1 "F1" "Downlight" 150 2) ++
            ("\r\n" ++ specBlock 2 2 "F2" "Wallwasher" 75 1))),
          result := .ok 2 } ∨
     main .windows true (some scenarioRows) (some "earlier blocks") mapValues =
        { output := some ("earlier blocks" ++
            (("\r\n" ++ specBlock 1 1 "F2" "Wallwasher" 75 1) ++
            ("\r\n" ++ specBlock 2 2 "F1" "Downlight" 150 2))),
          result := .ok 2 }) ∧
    main .posix true (some scenarioRows) (some "earlier blocks") mapValues =
      { output := some "earlier blocks", result := .error .executeTemplate }) :=
  ⟨List.Perm.refl _,
    scenario_run_by_main "earlier blocks" mapValues (List.Perm.refl _)⟩

/-- C15: on a POSIX system the open of line 115, with the flag O_APPEND alone, gives a
descriptor that rejects writes: over the rows of the round-trip scenario and an existing
output file with any prior content, the run stops at the first block with the template
diagnostic and the file holds the prior content and nothing more. -/
theorem append_open_rejects_writes_on_posix (prior : String) :
    OpenFile .posix (some prior) O_APPEND = some { content := prior, canWrite := false } ∧
    main .posix true (some scenarioRows) (some prior) mapValues =
      { output := some prior, result := .error .executeTemplate } := by
  refine ⟨rfl, ?_⟩
  have hagg : aggregate true scenarioRows = .ok scenarioFixtures := rfl
  have hloop := renderLoop_readOnly (mapValues scenarioFixtures)
    { content := prior, canWrite := false } 1 1 rfl (by decide)
  simp [main, hagg, OpenFile, O_APPEND, OpenFlag.grantsWrite, hloop]

/-- C16 as the code has it: when the output path does not exist at the output stage, the
open fails, the run stops with the output-opening diagnostic, and the path still does
not exist: nothing is created and nothing is written, on every platform. -/
theorem missing_output_is_fatal (platform : Platform) (header : Bool)
    (input : List (List String)) (rangeOrder : Fixtures → List FixtureInfo) (fx : Fixtures)
    (hok : aggregate header input = .ok fx) :
    OpenFile platform none O_APPEND = none ∧
    main platform header (some input) none rangeOrder =
      { output := none, result := .error .openOutput } := by
  have hopen : OpenFile platform none O_APPEND = none := by
    cases platform <;> rfl
  refine ⟨hopen, ?_⟩
  simp only [main, hok, hopen]

theorem missing_output_is_fatal_witness :
    aggregate true scenarioRows = .ok scenarioFixtures ∧
    (OpenFile .posix none O_APPEND = none ∧
    main .posix true (some scenarioRows) none mapValues =
      { output := none, result := .error .openOutput }) :=
  ⟨rfl, missing_output_is_fatal .posix true scenarioRows mapValues scenarioFixtures rfl⟩

/-- C16 as stated fails: over the rows of the round-trip scenario and a missing output
path, the run on Windows (where an appending open can write) ends with the
output-opening diagnostic and no file, instead of creating the file and writing the two
blocks. -/
theorem missing_output_not_created :
    (main .windows true (some scenarioRows) none mapValues).result = .error .openOutput ∧
    (main .windows true (some scenarioRows) none mapValues).output = none ∧
    ¬ ∃ written n, main .windows true (some scenarioRows) none mapValues =
      { output := some written, result := .ok n } := by
  refine ⟨rfl, rfl, ?_⟩
  rintro ⟨written, n, h⟩
  have h' := congrArg Outcome.output h
  exact Option.noConfusion (h'.symm.trans (rfl : (main .windows true (some scenarioRows)
    none mapValues).output = none))

/-! ## Keys and identifiers, and the order of the records -/

theorem mapGet_of_mem (m : Fixtures) (hnd : (mapKeys m).Nodup) (k : String) (f : FixtureInfo)
    (hmem : (k, f) ∈ m) : mapGet k m = some f := by
  induction m with
  | nil => simp at hmem
  | cons e m ih =>
    obtain ⟨k', v⟩ := e
    simp only [mapKeys, List.map_cons, List.nodup_cons] at hnd
    rcases List.mem_cons.mp hmem with h | h
    · injection h with h1 h2
      subst h1; subst h2
      simp [mapGet]
    · have hk : k' ≠ k := by
        intro hk
        subst hk
        exact hnd.1 (List.mem_map.mpr ⟨(k', f), h, rfl⟩)
      simp only [mapGet, hk, if_false]
      exact ih hnd.2 h

theorem ID_eq_key_of_inv {records : List (List String)} {fx : Fixtures}
    (h : AggInv records fx) (k : String) (f : FixtureInfo) (hmem : (k, f) ∈ fx) :
    f.ID = k := by
  have hget := mapGet_of_mem fx h.1 k f hmem
  have hk := h.2.2 k
  cases hfind : records.find? (hasId k) with
  | none => simp [hfind, hget] at hk
  | some r =>
    simp only [hfind, hget] at hk
    obtain ⟨_, _, _, _, _, _, heq⟩ := hk
    injection heq with heq
    rw [heq]

theorem map_ID_eq_mapKeys {records : List (List String)} {fx : Fixtures}
    (h : AggInv records fx) : (mapValues fx).map (fun f => f.ID) = mapKeys fx := by
  simp only [mapValues, mapKeys, List.map_map]
  apply List.map_congr_left
  intro e he
  exact ID_eq_key_of_inv h e.1 e.2 he

/-- C18: after the reading loop has run from the empty map over any prefix of the data
records of a successful aggregation, every entry of the map stored under key k has ID
equal to k; at the end the identifiers of the aggregates are pairwise distinct, so in
every traversal order no two rendered aggregates carry the same identifier. -/
theorem key_is_ID (header : Bool) (input : List (List String)) (fx : Fixtures)
    (pre post : List (List String))
    (hok : aggregate header input = .ok fx)
    (hsplit : dataRecords header input = pre ++ post) :
    (∃ line fxPre, readLoop [] line pre = .ok fxPre ∧
      ∀ k f, (k, f) ∈ fxPre → f.ID = k) ∧
    (∀ k f, (k, f) ∈ fx → f.ID = k) ∧
    (∀ order : List FixtureInfo, order.Perm (mapValues fx) →
      (order.map (fun f => f.ID)).Nodup) := by
  obtain ⟨line, hl⟩ := aggregate_ok hok
  have hfinal := readLoop_inv line _ fx hl
  refine ⟨?_, ID_eq_key_of_inv hfinal, ?_⟩
  · rw [hsplit, readLoop_append] at hl
    cases hpre : readLoop [] line pre with
    | error e => simp [hpre] at hl
    | ok fxPre =>
      exact ⟨line, fxPre, hpre, ID_eq_key_of_inv (readLoop_inv line pre fxPre hpre)⟩
  · intro order hperm
    have hp : (order.map (fun f => f.ID)).Perm ((mapValues fx).map (fun f => f.ID)) :=
      hperm.map _
    rw [hp.nodup_iff, map_ID_eq_mapKeys hfinal]
    exact hfinal.1

theorem key_is_ID_witness :
    aggregate true scenarioRows = .ok scenarioFixtures ∧
    dataRecords true scenarioRows =
      [["1", "F1", "Downlight", "150W"], ["2", "F1", "Downlight", "150W"]] ++
        [["3", "F2", "Wallwasher", "75VA"]] ∧
    ((∃ line fxPre, readLoop [] line
        [["1", "F1", "Downlight", "150W"], ["2", "F1", "Downlight", "150W"]] = .ok fxPre ∧
      ∀ k f, (k, f) ∈ fxPre → f.ID = k) ∧
    (∀ k f, (k, f) ∈ scenarioFixtures → f.ID = k) ∧
    (∀ order : List FixtureInfo, order.Perm (mapValues scenarioFixtures) →
      (order.map (fun f => f.ID)).Nodup)) :=
  ⟨rfl, rfl, key_is_ID true scenarioRows scenarioFixtures
    [["1", "F1", "Downlight", "150W"], ["2", "F1", "Downlight", "150W"]]
    [["3", "F2", "Wallwasher", "75VA"]] rfl rfl⟩

theorem count_of_inv {records : List (List String)} {fx : Fixtures}
    (h : AggInv records fx) (i : String) :
    (mapGet i fx).map (fun f => f.Count) =
      if records.countP (hasId i) = 0 then none
      else some (wrapInt (records.countP (hasId i))) := by
  have hi := h.2.2 i
  cases hfind : records.find? (hasId i) with
  | none =>
    simp only [hfind] at hi
    simp [hi, countP_eq_zero_of_find?_none _ _ hfind]
  | some r =>
    simp only [hfind] at hi
    obtain ⟨_, _, _, _, _, _, hget⟩ := hi
    have hmem := List.mem_of_find?_eq_some hfind
    have hp : hasId i r = true := List.find?_some hfind
    have hpos : 0 < records.countP (hasId i) := List.countP_pos_iff.mpr ⟨r, hmem, hp⟩
    simp [hget, Nat.ne_of_gt hpos]

/-- C19: for two inputs whose data records are permutations of one another and on which
aggregation succeeds, the two aggregate collections have the same keys, and every key
has the same Count in both. -/
theorem counts_do_not_depend_on_order (header1 header2 : Bool)
    (input1 input2 : List (List String)) (fx1 fx2 : Fixtures)
    (hperm : (dataRecords header1 input1).Perm (dataRecords header2 input2))
    (hok1 : aggregate header1 input1 = .ok fx1)
    (hok2 : aggregate header2 input2 = .ok fx2) :
    (∀ i, i ∈ mapKeys fx1 ↔ i ∈ mapKeys fx2) ∧
    (∀ i, (mapGet i fx1).map (fun f => f.Count) = (mapGet i fx2).map (fun f => f.Count)) := by
  have h1 := aggregate_inv hok1
  have h2 := aggregate_inv hok2
  constructor
  · intro i
    rw [mem_mapKeys_iff_of_inv h1 i, mem_mapKeys_iff_of_inv h2 i]
    constructor
    · rintro ⟨r, hr, hri⟩; exact ⟨r, hperm.mem_iff.mp hr, hri⟩
    · rintro ⟨r, hr, hri⟩; exact ⟨r, hperm.mem_iff.mpr hr, hri⟩
  · intro i
    rw [count_of_inv h1 i, count_of_inv h2 i, hperm.countP_eq]

theorem counts_do_not_depend_on_order_witness :
    (dataRecords true scenarioRows).Perm (dataRecords false scenarioRowsReordered) ∧
    aggregate true scenarioRows = .ok scenarioFixtures ∧
    aggregate false scenarioRowsReordered = .ok scenarioFixturesReordered ∧
    ((∀ i, i ∈ mapKeys scenarioFixtures ↔ i ∈ mapKeys scenarioFixturesReordered) ∧
    (∀ i, (mapGet i scenarioFixtures).map (fun f => f.Count) =
      (mapGet i scenarioFixturesReordered).map (fun f => f.Count))) :=
  ⟨by decide, rfl, rfl,
    counts_do_not_depend_on_order true false scenarioRows scenarioRowsReordered
      scenarioFixtures scenarioFixturesReordered (by decide) rfl rfl⟩

end CsvToCck
